import Mathlib

/-!
Verification of the transaction-lifecycle and event-dispatch layer of the
atscppapi wrapper (source file: src/lib/atscppapi/src/utils_internal.cc).

The shallow embedding below models:
  * the per-transaction reserved storage slot and the registry
    (utils::internal::getTransaction);
  * the event router registered on six lifecycle hooks
    (handleTransactionEvents);
  * the plugin dispatcher (invokePluginForEvent, both the anonymous-namespace
    core and the TransactionPlugin / GlobalPlugin wrappers);
  * the hook-id translators (convertInternalHookToTsHook,
    convertInternalTransformationTypeToTsHook);
  * the HTTP version accessor (getHttpVersion);
  * the buffered-reader drain (consumeFromTSIOBufferReader).

Host-provided entities are modelled explicitly: transaction objects and
plugin objects are identified by natural-number ids standing for their heap
addresses; the reserved txn-arg slot is an Option Nat (none = NULL pointer);
observable side effects (mutex lock/unlock, delete, reenable, view
initialisation, callback invocation) are recorded in a trace of Actions.
asserts are recorded as an assertFail action after which control continues,
matching the release (NDEBUG) build in which the code after the switch runs.
-/

namespace AtsCppApi

/-- Host event codes (TSEvent) relevant to this translation unit.  The host
enumeration has many more members; other n stands for any event code that is
none of the named ones. -/
inductive TSEvent where
  | preRemap
  | postRemap
  | sendRequestHdr
  | readResponseHdr
  | sendResponseHdr
  | osDns
  | readRequestHdr
  | readCacheHdr
  | cacheLookupComplete
  | selectAlt
  | txnClose
  | other (n : Nat)
deriving DecidableEq, Repr

/-- The signal passed to TSHttpTxnReenable: TS_EVENT_HTTP_CONTINUE or
TS_EVENT_HTTP_ERROR. -/
inductive TSReenableSignal where
  | cont
  | error
deriving DecidableEq, Repr

/-- The ten named phase-callback methods of the Plugin class that the
dispatcher switch can forward to. -/
inductive PluginCallback where
  | handleReadRequestHeadersPreRemap
  | handleReadRequestHeadersPostRemap
  | handleSendRequestHeaders
  | handleReadResponseHeaders
  | handleSendResponseHeaders
  | handleOsDns
  | handleReadRequestHeaders
  | handleReadCacheHeaders
  | handleReadCacheLookupComplete
  | handleSelectAlt
deriving DecidableEq, Repr

/-- Observable side effects performed by the embedded functions, recorded in
order of execution. -/
inductive Action where
  | lock (m : Nat)
  | unlock (m : Nat)
  | deletePlugin (p : Nat)
  | deleteTxn (t : Nat)
  | reenable (sig : TSReenableSignal)
  | assertFail
  | resetClientUrl
  | refreshClientRequest
  | initServerRequest
  | initServerResponse
  | initClientResponse
  | initCachedRequest
  | initCachedResponse
  | invoke (plugin : Nat) (cb : PluginCallback) (txn : Nat)
deriving DecidableEq, Repr

/-- const int MAX_TXN_ARG = 15. -/
def MAX_TXN_ARG : Nat := 15

/-- const int TRANSACTION_STORAGE_INDEX = MAX_TXN_ARG.  The model collapses
the host's 16-slot txn-arg array to this one reserved slot, the only index
this translation unit ever reads or writes. -/
def TRANSACTION_STORAGE_INDEX : Nat := MAX_TXN_ARG

/-- The state attached to one transaction handle: the reserved storage slot
(TSHttpTxnArgGet/Set at TRANSACTION_STORAGE_INDEX; none models NULL), the
allocator (nextId is the address the next new Transaction would get),
the list of Transaction objects ever allocated for this handle, the list of
Transaction objects freed, the per-transaction plugin list held by the live
Transaction object, and the list of plugins freed. -/
structure TxnState where
  slot : Option Nat
  nextId : Nat
  allocated : List Nat
  freed : List Nat
  plugins : List Nat
  freedPlugins : List Nat
deriving DecidableEq, Repr

/-- utils::internal::getTransaction: read the reserved slot; if NULL,
allocate a new Transaction, store its address in the slot and return it;
otherwise return the stored pointer.  Returns the pointer and the updated
state. -/
def getTransaction (s : TxnState) : Nat × TxnState :=
  match s.slot with
  | some t => (t, s)
  | none =>
      (s.nextId,
       { s with
           slot := some s.nextId,
           nextId := s.nextId + 1,
           allocated := s.allocated ++ [s.nextId] })

/-- The TS_EVENT_HTTP_TXN_CLOSE case block of handleTransactionEvents: for
each registered plugin, lock its mutex, delete it, unlock; then delete the
Transaction object itself.  The slot is not touched. -/
def closeCase (t : Nat) (s : TxnState) : TxnState × List Action :=
  ({ s with
       plugins := [],
       freedPlugins := s.freedPlugins ++ s.plugins,
       freed := s.freed ++ [t] },
   (s.plugins.flatMap fun p => [Action.lock p, Action.deletePlugin p, Action.unlock p]) ++
     [Action.deleteTxn t])

/-- Result of one invocation of the event-router continuation: the int
return value, the state after, and the trace of observable actions. -/
structure HandlerResult where
  ret : Int
  state : TxnState
  trace : List Action
deriving DecidableEq, Repr

/-- handleTransactionEvents: resolve the Transaction via getTransaction,
switch on the event (six expected cases; default asserts), then reenable the
transaction with TS_EVENT_HTTP_CONTINUE and return 0. -/
def handleTransactionEvents (event : TSEvent) (s : TxnState) : HandlerResult :=
  let t := (getTransaction s).1
  let s1 := (getTransaction s).2
  let step : TxnState × List Action :=
    match event with
    | .postRemap => (s1, [Action.resetClientUrl, Action.refreshClientRequest])
    | .sendRequestHdr => (s1, [Action.initServerRequest])
    | .readResponseHdr => (s1, [Action.initServerResponse])
    | .sendResponseHdr => (s1, [Action.initClientResponse])
    | .readCacheHdr => (s1, [Action.initCachedRequest, Action.initCachedResponse])
    | .txnClose => closeCase t s1
    | _ => (s1, [Action.assertFail])
  { ret := 0, state := step.1, trace := step.2 ++ [Action.reenable .cont] }

/-- The switch of the anonymous-namespace invokePluginForEvent: the callback
method selected by the event code; none on the default (assert) branch. -/
def callbackForEvent : TSEvent → Option PluginCallback
  | .preRemap => some .handleReadRequestHeadersPreRemap
  | .postRemap => some .handleReadRequestHeadersPostRemap
  | .sendRequestHdr => some .handleSendRequestHeaders
  | .readResponseHdr => some .handleReadResponseHeaders
  | .sendResponseHdr => some .handleSendResponseHeaders
  | .osDns => some .handleOsDns
  | .readRequestHdr => some .handleReadRequestHeaders
  | .readCacheHdr => some .handleReadCacheHeaders
  | .cacheLookupComplete => some .handleReadCacheLookupComplete
  | .selectAlt => some .handleSelectAlt
  | _ => none

/-- The anonymous-namespace invokePluginForEvent(Plugin*, TSHttpTxn, TSEvent):
resolve the Transaction via getTransaction, then invoke on the plugin the one
callback selected by the event; the default branch asserts and invokes
nothing. -/
def invokePluginForEvent (p : Nat) (s : TxnState) (e : TSEvent) : TxnState × List Action :=
  match callbackForEvent e with
  | some cb => ((getTransaction s).2, [Action.invoke p cb (getTransaction s).1])
  | none => ((getTransaction s).2, [Action.assertFail])

/-- utils::internal::invokePluginForEvent(TransactionPlugin*, ...): the core
dispatch wrapped in a ScopedSharedMutexLock on the plugin's own mutex, which
is released when the scope exits. -/
def invokeTransactionPluginForEvent (p : Nat) (s : TxnState) (e : TSEvent) :
    TxnState × List Action :=
  ((invokePluginForEvent p s e).1,
   Action.lock p :: (invokePluginForEvent p s e).2 ++ [Action.unlock p])

/-- utils::internal::invokePluginForEvent(GlobalPlugin*, ...): the core
dispatch with no locking. -/
def invokeGlobalPluginForEvent (p : Nat) (s : TxnState) (e : TSEvent) :
    TxnState × List Action :=
  invokePluginForEvent p s e

/-- The operations that can touch a handle's state over its lifetime:
a direct getTransaction call (from the dispatch glue), a router event
delivery, and a plugin registration (Transaction::addPlugin appends to the
transaction's plugin list). -/
inductive Op where
  | getTxn
  | ev (e : TSEvent)
  | registerPlugin (p : Nat)
deriving DecidableEq, Repr

/-- Apply one operation to the handle state. -/
def applyOp (s : TxnState) : Op → TxnState
  | .getTxn => (getTransaction s).2
  | .ev e => (handleTransactionEvents e s).state
  | .registerPlugin p => { s with plugins := s.plugins ++ [p] }

/-- Run a sequence of operations. -/
def runOps (s : TxnState) (ops : List Op) : TxnState := ops.foldl applyOp s

/-- A fresh handle: empty slot, nothing allocated or freed. -/
def initialTxnState : TxnState :=
  { slot := none, nextId := 0, allocated := [], freed := [], plugins := [], freedPlugins := [] }

/-- Plugin::HookType, the internal hook enumeration (ten values). -/
inductive HookType where
  | HOOK_READ_REQUEST_HEADERS_POST_REMAP
  | HOOK_READ_REQUEST_HEADERS_PRE_REMAP
  | HOOK_READ_RESPONSE_HEADERS
  | HOOK_SEND_REQUEST_HEADERS
  | HOOK_SEND_RESPONSE_HEADERS
  | HOOK_OS_DNS
  | HOOK_READ_REQUEST_HEADERS
  | HOOK_READ_CACHE_HEADERS
  | HOOK_CACHE_LOOKUP_COMPLETE
  | HOOK_SELECT_ALT
deriving DecidableEq, Repr

/-- TransformationPlugin::Type, the internal transform-type enumeration. -/
inductive TransformationType where
  | RESPONSE_TRANSFORMATION
  | REQUEST_TRANSFORMATION
deriving DecidableEq, Repr

/-- The host hook identifiers (TSHttpHookID) this translation unit mentions,
plus invalidHook for the static_cast of -1 returned after the default
branch. -/
inductive TSHttpHookID where
  | TS_HTTP_POST_REMAP_HOOK
  | TS_HTTP_PRE_REMAP_HOOK
  | TS_HTTP_READ_RESPONSE_HDR_HOOK
  | TS_HTTP_SEND_REQUEST_HDR_HOOK
  | TS_HTTP_SEND_RESPONSE_HDR_HOOK
  | TS_HTTP_OS_DNS_HOOK
  | TS_HTTP_READ_REQUEST_HDR_HOOK
  | TS_HTTP_READ_CACHE_HDR_HOOK
  | TS_HTTP_CACHE_LOOKUP_COMPLETE_HOOK
  | TS_HTTP_SELECT_ALT_HOOK
  | TS_HTTP_RESPONSE_TRANSFORM_HOOK
  | TS_HTTP_REQUEST_TRANSFORM_HOOK
  | TS_HTTP_TXN_CLOSE_HOOK
  | invalidHook
deriving DecidableEq, Repr

/-- utils::internal::convertInternalHookToTsHook.  A C++ enum variable can
carry a value outside the declared enumerators (via a cast), which the
default branch catches: the domain is therefore Option HookType with none
standing for any such out-of-range value.  The Bool records whether the
fatal assert branch was reached (in a release build the function then
returns static_cast of -1, here invalidHook). -/
def convertInternalHookToTsHook : Option HookType → TSHttpHookID × Bool
  | some .HOOK_READ_REQUEST_HEADERS_POST_REMAP => (.TS_HTTP_POST_REMAP_HOOK, false)
  | some .HOOK_READ_REQUEST_HEADERS_PRE_REMAP => (.TS_HTTP_PRE_REMAP_HOOK, false)
  | some .HOOK_READ_RESPONSE_HEADERS => (.TS_HTTP_READ_RESPONSE_HDR_HOOK, false)
  | some .HOOK_SEND_REQUEST_HEADERS => (.TS_HTTP_SEND_REQUEST_HDR_HOOK, false)
  | some .HOOK_SEND_RESPONSE_HEADERS => (.TS_HTTP_SEND_RESPONSE_HDR_HOOK, false)
  | some .HOOK_OS_DNS => (.TS_HTTP_OS_DNS_HOOK, false)
  | some .HOOK_READ_REQUEST_HEADERS => (.TS_HTTP_READ_REQUEST_HDR_HOOK, false)
  | some .HOOK_READ_CACHE_HEADERS => (.TS_HTTP_READ_CACHE_HDR_HOOK, false)
  | some .HOOK_CACHE_LOOKUP_COMPLETE => (.TS_HTTP_CACHE_LOOKUP_COMPLETE_HOOK, false)
  | some .HOOK_SELECT_ALT => (.TS_HTTP_SELECT_ALT_HOOK, false)
  | none => (.invalidHook, true)

/-- utils::internal::convertInternalTransformationTypeToTsHook, with the same
Option-domain convention as convertInternalHookToTsHook. -/
def convertInternalTransformationTypeToTsHook : Option TransformationType → TSHttpHookID × Bool
  | some .RESPONSE_TRANSFORMATION => (.TS_HTTP_RESPONSE_TRANSFORM_HOOK, false)
  | some .REQUEST_TRANSFORMATION => (.TS_HTTP_REQUEST_TRANSFORM_HOOK, false)
  | none => (.invalidHook, true)

/-- HttpVersion as used by getHttpVersion. -/
inductive HttpVersion where
  | HTTP_VERSION_UNKNOWN
  | HTTP_VERSION_0_9
  | HTTP_VERSION_1_0
  | HTTP_VERSION_1_1
deriving DecidableEq, Repr

/-- utils::internal::getHttpVersion.  The host accessor TSHttpHdrVersionGet,
together with the TS_HTTP_MAJOR / TS_HTTP_MINOR decoding, is modelled as
delivering either the (major, minor) pair or an error (none = TS_ERROR).
The Bool records whether a diagnostic was logged (LOG_ERROR). -/
def getHttpVersion : Option (Nat × Nat) → HttpVersion × Bool
  | some (major, minor) =>
      if major == 0 && minor == 0 then (.HTTP_VERSION_0_9, false)
      else if major == 1 && minor == 0 then (.HTTP_VERSION_1_0, false)
      else if major == 1 && minor == 1 then (.HTTP_VERSION_1_1, false)
      else (.HTTP_VERSION_UNKNOWN, true)
  | none => (.HTTP_VERSION_UNKNOWN, true)

/-- TS_ERROR. -/
def TS_ERROR : Int := -1

/-- Conversion of a wider integer value to the C int of the source:
truncation to 32 bits reinterpreted as two's-complement signed, the wrap the
function's int locals perform on values at or beyond 2 to the 31. -/
def toInt32 (v : Int) : Int :=
  if v % 2 ^ 32 < 2 ^ 31 then v % 2 ^ 32 else v % 2 ^ 32 - 2 ^ 32

/-- A host buffered reader: either its availability query errors, or it
exposes a sequence of data blocks (each a byte list). -/
structure TSIOBufferReader where
  error : Bool
  blocks : List (List UInt8)
deriving DecidableEq, Repr

/-- TSIOBufferReaderAvail: the host's int64_t count of bytes available for
reading, or TS_ERROR.  On a non-erroring reader the host reports exactly the
bytes held in the reader's blocks. -/
def TSIOBufferReaderAvail (r : TSIOBufferReader) : Int :=
  if r.error then TS_ERROR else ((r.blocks.map List.length).sum : Nat)

/-- The while loop of consumeFromTSIOBufferReader: walk the block chain from
TSIOBufferReaderStart, appending each block's bytes to str and adding its
int64_t length to the int accumulator consumed, which wraps at 32 bits. -/
def drainLoop : List (List UInt8) → List UInt8 → Int → List UInt8 × Int
  | [], str, consumed => (str, consumed)
  | b :: rest, str, consumed =>
      drainLoop rest (str ++ b) (toInt32 (consumed + (b.length : Int)))

/-- Result of consumeFromTSIOBufferReader: the returned string, the list of
TSIOBufferReaderConsume calls issued (int argument values, in order), and
whether LOG_ERROR ran. -/
structure DrainResult where
  str : List UInt8
  consumeCalls : List Int
  loggedError : Bool
deriving DecidableEq, Repr

/-- utils::internal::consumeFromTSIOBufferReader: query availability into an
int local (narrowing the host's int64_t count to 32 bits); on TS_ERROR log
and return the empty string without consuming; otherwise read all blocks
(the loop is entered only when the narrowed avail is positive), then issue
exactly one TSIOBufferReaderConsume with the accumulated int count. -/
def consumeFromTSIOBufferReader (r : TSIOBufferReader) : DrainResult :=
  let avail := toInt32 (TSIOBufferReaderAvail r)
  if avail ≠ TS_ERROR then
    let body : List UInt8 × Int := if avail > 0 then drainLoop r.blocks [] 0 else ([], 0)
    { str := body.1, consumeCalls := [body.2], loggedError := false }
  else
    { str := [], consumeCalls := [], loggedError := true }

/-- toInt32 is the identity below 2 to the 31. -/
theorem toInt32_of_small (v : Int) (h0 : 0 ≤ v) (h1 : v < 2 ^ 31) : toInt32 v = v := by
  have hm : v % 2 ^ 32 = v := Int.emod_eq_of_lt h0 (by omega)
  simp only [toInt32, hm]
  rw [if_pos h1]

/-- As long as the int accumulator stays below 2 to the 31, the drain
while-loop appends the blocks in order and adds up their lengths exactly. -/
theorem drainLoop_eq (blocks : List (List UInt8)) (str : List UInt8) (consumed : Int)
    (h0 : 0 ≤ consumed)
    (hb : consumed + (((blocks.map List.length).sum : Nat) : Int) < 2 ^ 31) :
    drainLoop blocks str consumed =
      (str ++ blocks.flatten, consumed + (((blocks.map List.length).sum : Nat) : Int)) := by
  induction blocks generalizing str consumed with
  | nil => simp [drainLoop]
  | cons b rest ih =>
      have hsum : ((((b :: rest).map List.length).sum : Nat) : Int) =
          (b.length : Int) + (((rest.map List.length).sum : Nat) : Int) := by
        simp only [List.map_cons, List.sum_cons]
        push_cast
        ring
      rw [hsum] at hb
      have hb2 : consumed + (b.length : Int) +
          (((rest.map List.length).sum : Nat) : Int) < 2 ^ 31 := by
        omega
      have hsmall : toInt32 (consumed + (b.length : Int)) = consumed + (b.length : Int) :=
        toInt32_of_small _ (by omega) (by omega)
      rw [drainLoop, hsmall, ih _ _ (by omega) hb2, hsum]
      simp only [List.flatten_cons, List.append_assoc, Prod.mk.injEq, true_and]
      ring

/-- Closed form of the error path: log, consume nothing, return empty. -/
theorem consumeSpec_error (r : TSIOBufferReader) (h : r.error = true) :
    consumeFromTSIOBufferReader r = { str := [], consumeCalls := [], loggedError := true } := by
  have havail : TSIOBufferReaderAvail r = TS_ERROR := by
    simp [TSIOBufferReaderAvail, h]
  have ht : toInt32 TS_ERROR = TS_ERROR := by decide
  simp [consumeFromTSIOBufferReader, havail, ht]

/-- Closed form of the success path for totals below 2 to the 31: return the
flattened blocks and consume exactly their total length, once. -/
theorem consumeSpec_ok (r : TSIOBufferReader) (h : r.error = false)
    (hb : (r.blocks.map List.length).sum < 2 ^ 31) :
    consumeFromTSIOBufferReader r =
      { str := r.blocks.flatten,
        consumeCalls := [(r.blocks.flatten.length : Int)],
        loggedError := false } := by
  have havail : TSIOBufferReaderAvail r = (((r.blocks.map List.length).sum : Nat) : Int) := by
    simp [TSIOBufferReaderAvail, h]
  have ht : toInt32 (TSIOBufferReaderAvail r) =
      (((r.blocks.map List.length).sum : Nat) : Int) := by
    rw [havail]
    exact toInt32_of_small _ (by positivity) (by exact_mod_cast hb)
  have hne : toInt32 (TSIOBufferReaderAvail r) ≠ TS_ERROR := by
    rw [ht]
    simp only [TS_ERROR]
    omega
  have hbody : (if toInt32 (TSIOBufferReaderAvail r) > 0 then drainLoop r.blocks [] 0
        else ([], 0)) =
      (r.blocks.flatten, (((r.blocks.map List.length).sum : Nat) : Int)) := by
    rcases Nat.eq_zero_or_pos (r.blocks.map List.length).sum with h0 | hpos
    · have hflat : r.blocks.flatten = [] := by
        rw [← List.length_eq_zero, List.length_flatten]
        exact h0
      rw [ht, h0, if_neg (by norm_num), hflat]
      norm_num
    · rw [ht, if_pos (by exact_mod_cast hpos)]
      have hd := drainLoop_eq r.blocks [] 0 le_rfl
        (by rw [zero_add]; exact_mod_cast hb)
      simpa using hd
  have hres : consumeFromTSIOBufferReader r =
      { str := r.blocks.flatten,
        consumeCalls := [(((r.blocks.map List.length).sum : Nat) : Int)],
        loggedError := false } := by
    simp only [consumeFromTSIOBufferReader, hbody]
    rw [if_pos hne]
  rw [hres]
  simp [List.length_flatten]

/-- Claim C8 (amended): for every reader whose availability query succeeds
and whose total available byte count is below 2 to the 31 (so the narrowing
into the function's int locals is value-preserving), the function returns
the concatenation, in block order, of the bytes of all blocks and then marks
that byte count as consumed on the reader; for every reader whose
availability query reports an error, it returns an empty string, signals the
condition through logging, and throws no exception. -/
theorem consumeFromTSIOBufferReader_drains (r : TSIOBufferReader) :
    (r.error = false → (r.blocks.map List.length).sum < 2 ^ 31 →
        consumeFromTSIOBufferReader r =
          { str := r.blocks.flatten,
            consumeCalls := [(r.blocks.flatten.length : Int)],
            loggedError := false })
  ∧ (r.error = true →
        consumeFromTSIOBufferReader r =
          { str := [], consumeCalls := [], loggedError := true }) :=
  ⟨fun h hb => consumeSpec_ok r h hb, fun h => consumeSpec_error r h⟩

/-- Witness for C8: a reader exposing three blocks of sizes 4, 0 and 6 bytes
drains to their 10-byte concatenation with one consume call of 10. -/
theorem consumeFromTSIOBufferReader_drains_witness :
    consumeFromTSIOBufferReader ⟨false, [[1, 2, 3, 4], [], [5, 6, 7, 8, 9, 10]]⟩ =
      { str := [1, 2, 3, 4, 5, 6, 7, 8, 9, 10],
        consumeCalls := [10],
        loggedError := false } := by
  have h :=
    (consumeFromTSIOBufferReader_drains ⟨false, [[1, 2, 3, 4], [], [5, 6, 7, 8, 9, 10]]⟩).1
      rfl (by decide)
  exact h

/-- A single-block reader built from List.replicate reports its block length
as available. -/
theorem availOneBlock (n : Nat) :
    TSIOBufferReaderAvail (TSIOBufferReader.mk false [List.replicate n 0]) = (n : Int) := by
  simp [TSIOBufferReaderAvail, List.length_replicate]

/-- On a single-block reader whose narrowed avail is neither TS_ERROR nor
positive, the loop is skipped: empty string, one consume of 0. -/
theorem consumeOneBlockNonpos (n : Nat)
    (hne : toInt32 (n : Int) ≠ TS_ERROR) (hnp : ¬toInt32 (n : Int) > 0) :
    consumeFromTSIOBufferReader (TSIOBufferReader.mk false [List.replicate n 0]) =
      { str := [], consumeCalls := [0], loggedError := false } := by
  simp only [consumeFromTSIOBufferReader, availOneBlock]
  rw [if_pos hne, if_neg hnp]

/-- On a single-block reader whose narrowed avail is positive, the loop
appends the whole block while the int accumulator wraps. -/
theorem consumeOneBlockPos (n : Nat)
    (hne : toInt32 (n : Int) ≠ TS_ERROR) (hp : toInt32 (n : Int) > 0) :
    consumeFromTSIOBufferReader (TSIOBufferReader.mk false [List.replicate n 0]) =
      { str := List.replicate n 0,
        consumeCalls := [toInt32 (0 + (n : Int))],
        loggedError := false } := by
  have hdrain : drainLoop [List.replicate n (0 : UInt8)] [] 0 =
      (List.replicate n 0, toInt32 (0 + (n : Int))) := by
    rw [drainLoop, drainLoop, List.nil_append, List.length_replicate]
  simp only [consumeFromTSIOBufferReader, availOneBlock]
  rw [if_pos hne, if_pos hp, hdrain]

/-- Counterexample to C8 as stated: on a reader holding one block of 2 to
the 31 bytes the availability query succeeds, but the narrowing of the count
into the int local wraps it negative, the loop is skipped, and the empty
string is returned instead of the concatenation of the blocks. -/
theorem consumeFromTSIOBufferReader_drains_counterexample :
    (TSIOBufferReader.mk false [List.replicate (2 ^ 31) 0]).error = false
  ∧ (consumeFromTSIOBufferReader
        (TSIOBufferReader.mk false [List.replicate (2 ^ 31) 0])).str = []
  ∧ (TSIOBufferReader.mk false [List.replicate (2 ^ 31) 0]).blocks.flatten ≠ [] := by
  have hne : toInt32 ((2 ^ 31 : Nat) : Int) ≠ TS_ERROR := by decide
  have hnp : ¬toInt32 ((2 ^ 31 : Nat) : Int) > 0 := by decide
  have hflat : (TSIOBufferReader.mk false [List.replicate (2 ^ 31) (0 : UInt8)]).blocks.flatten =
      List.replicate (2 ^ 31) 0 := by
    show ([List.replicate (2 ^ 31) (0 : UInt8)]).flatten = _
    simp only [List.flatten_cons, List.flatten_nil, List.append_nil]
  refine ⟨rfl, ?_, ?_⟩
  · rw [consumeOneBlockNonpos (2 ^ 31) hne hnp]
  · rw [hflat]
    intro hcon
    have hlen := congrArg List.length hcon
    rw [List.length_replicate] at hlen
    simp only [List.length_nil] at hlen
    exact absurd hlen (by decide)

/-- Claim C9 (amended): on the success path with total available bytes below
2 to the 31, the count passed to the reader's consume acknowledgment equals
the length of the returned string, and the consume acknowledgment is issued
exactly once, also when zero bytes are available. -/
theorem consume_acknowledges_returned_length (r : TSIOBufferReader) (h : r.error = false)
    (hb : (r.blocks.map List.length).sum < 2 ^ 31) :
    (consumeFromTSIOBufferReader r).consumeCalls =
      [((consumeFromTSIOBufferReader r).str.length : Int)] := by
  rw [consumeSpec_ok r h hb]

/-- Witness for C9: a reader with zero bytes available still gets exactly one
consume call, of 0. -/
theorem consume_acknowledges_returned_length_witness :
    (consumeFromTSIOBufferReader ⟨false, []⟩).consumeCalls =
      [((consumeFromTSIOBufferReader ⟨false, []⟩).str.length : Int)] :=
  consume_acknowledges_returned_length ⟨false, []⟩ rfl (by decide)

/-- Counterexample to C9 as stated: on a reader holding one block of 2 to
the 32 plus 5 bytes the narrowed avail is 5, the block-driven loop appends
all the bytes, but the int accumulator wraps to 5, so the acknowledged count
differs from the length of the returned string. -/
theorem consume_acknowledges_counterexample :
    (TSIOBufferReader.mk false [List.replicate (2 ^ 32 + 5) 0]).error = false
  ∧ (consumeFromTSIOBufferReader
        (TSIOBufferReader.mk false [List.replicate (2 ^ 32 + 5) 0])).consumeCalls = [(5 : Int)]
  ∧ (consumeFromTSIOBufferReader
        (TSIOBufferReader.mk false [List.replicate (2 ^ 32 + 5) 0])).str.length = 2 ^ 32 + 5
  ∧ (consumeFromTSIOBufferReader
        (TSIOBufferReader.mk false [List.replicate (2 ^ 32 + 5) 0])).consumeCalls ≠
      [((consumeFromTSIOBufferReader
          (TSIOBufferReader.mk false [List.replicate (2 ^ 32 + 5) 0])).str.length : Int)] := by
  have hne : toInt32 ((2 ^ 32 + 5 : Nat) : Int) ≠ TS_ERROR := by decide
  have hp : toInt32 ((2 ^ 32 + 5 : Nat) : Int) > 0 := by decide
  have h05 : toInt32 (0 + ((2 ^ 32 + 5 : Nat) : Int)) = 5 := by decide
  have hres := consumeOneBlockPos (2 ^ 32 + 5) hne hp
  rw [h05] at hres
  have hlen : (List.replicate (2 ^ 32 + 5) (0 : UInt8)).length = 2 ^ 32 + 5 :=
    List.length_replicate _ _
  have c2 : (consumeFromTSIOBufferReader
      (TSIOBufferReader.mk false [List.replicate (2 ^ 32 + 5) 0])).consumeCalls = [(5 : Int)] := by
    rw [hres]
  have c3 : (consumeFromTSIOBufferReader
      (TSIOBufferReader.mk false [List.replicate (2 ^ 32 + 5) 0])).str.length = 2 ^ 32 + 5 := by
    rw [hres]
    exact hlen
  refine ⟨rfl, c2, c3, ?_⟩
  rw [c2, c3]
  decide

/-- Claim C6: the two hook-id translators are total, stable mappings: each of
the ten HookType values and both TransformationPlugin Type values maps to
exactly the host hook identifier given by its switch table, and an input
outside the defined enum values reaches the fatal assertion path. -/
theorem hook_translators_total_stable :
    convertInternalHookToTsHook (some .HOOK_READ_REQUEST_HEADERS_POST_REMAP) =
      (.TS_HTTP_POST_REMAP_HOOK, false)
  ∧ convertInternalHookToTsHook (some .HOOK_READ_REQUEST_HEADERS_PRE_REMAP) =
      (.TS_HTTP_PRE_REMAP_HOOK, false)
  ∧ convertInternalHookToTsHook (some .HOOK_READ_RESPONSE_HEADERS) =
      (.TS_HTTP_READ_RESPONSE_HDR_HOOK, false)
  ∧ convertInternalHookToTsHook (some .HOOK_SEND_REQUEST_HEADERS) =
      (.TS_HTTP_SEND_REQUEST_HDR_HOOK, false)
  ∧ convertInternalHookToTsHook (some .HOOK_SEND_RESPONSE_HEADERS) =
      (.TS_HTTP_SEND_RESPONSE_HDR_HOOK, false)
  ∧ convertInternalHookToTsHook (some .HOOK_OS_DNS) = (.TS_HTTP_OS_DNS_HOOK, false)
  ∧ convertInternalHookToTsHook (some .HOOK_READ_REQUEST_HEADERS) =
      (.TS_HTTP_READ_REQUEST_HDR_HOOK, false)
  ∧ convertInternalHookToTsHook (some .HOOK_READ_CACHE_HEADERS) =
      (.TS_HTTP_READ_CACHE_HDR_HOOK, false)
  ∧ convertInternalHookToTsHook (some .HOOK_CACHE_LOOKUP_COMPLETE) =
      (.TS_HTTP_CACHE_LOOKUP_COMPLETE_HOOK, false)
  ∧ convertInternalHookToTsHook (some .HOOK_SELECT_ALT) = (.TS_HTTP_SELECT_ALT_HOOK, false)
  ∧ convertInternalTransformationTypeToTsHook (some .RESPONSE_TRANSFORMATION) =
      (.TS_HTTP_RESPONSE_TRANSFORM_HOOK, false)
  ∧ convertInternalTransformationTypeToTsHook (some .REQUEST_TRANSFORMATION) =
      (.TS_HTTP_REQUEST_TRANSFORM_HOOK, false)
  ∧ convertInternalHookToTsHook none = (.invalidHook, true)
  ∧ convertInternalTransformationTypeToTsHook none = (.invalidHook, true) := by
  decide

/-- Claim C7: getHttpVersion maps (0,0) to HTTP_VERSION_0_9, (1,0) to
HTTP_VERSION_1_0, (1,1) to HTTP_VERSION_1_1; every other pair, for example
(2,0), yields HTTP_VERSION_UNKNOWN together with a logged diagnostic; and a
failing host version query also logs and yields HTTP_VERSION_UNKNOWN. -/
theorem getHttpVersion_mapping :
    getHttpVersion (some (0, 0)) = (.HTTP_VERSION_0_9, false)
  ∧ getHttpVersion (some (1, 0)) = (.HTTP_VERSION_1_0, false)
  ∧ getHttpVersion (some (1, 1)) = (.HTTP_VERSION_1_1, false)
  ∧ getHttpVersion (some (2, 0)) = (.HTTP_VERSION_UNKNOWN, true)
  ∧ (∀ major minor : Nat,
       ¬(major = 0 ∧ minor = 0) → ¬(major = 1 ∧ minor = 0) → ¬(major = 1 ∧ minor = 1) →
       getHttpVersion (some (major, minor)) = (.HTTP_VERSION_UNKNOWN, true))
  ∧ getHttpVersion none = (.HTTP_VERSION_UNKNOWN, true) := by
  refine ⟨rfl, rfl, rfl, rfl, ?_, rfl⟩
  intro major minor h1 h2 h3
  simp only [getHttpVersion]
  split_ifs with a b c
  · simp only [Bool.and_eq_true, beq_iff_eq] at a
    exact absurd a h1
  · simp only [Bool.and_eq_true, beq_iff_eq] at b
    exact absurd b h2
  · simp only [Bool.and_eq_true, beq_iff_eq] at c
    exact absurd c h3
  · rfl

/-- Witness for C7: HTTP version pair (3,7) yields unknown with a logged
diagnostic. -/
theorem getHttpVersion_mapping_witness :
    getHttpVersion (some (3, 7)) = (.HTTP_VERSION_UNKNOWN, true) :=
  getHttpVersion_mapping.2.2.2.2.1 3 7 (by decide) (by decide) (by decide)

/-- True exactly on reenable actions. -/
def Action.isReenable : Action → Bool
  | .reenable _ => true
  | _ => false

/-- The per-plugin delete blocks of the close case contain no reenable. -/
theorem countP_isReenable_flatMap (ps : List Nat) :
    ((ps.flatMap fun q => [Action.lock q, Action.deletePlugin q, Action.unlock q]).countP
      fun a => a.isReenable) = 0 := by
  induction ps with
  | nil => rfl
  | cons q ps ih =>
      simp only [List.flatMap_cons, List.countP_append, ih]
      rfl

/-- Claim C4: for every event code in the ten-element set, the plugin
dispatcher resolves the handle's TransactionObject and forwards to exactly
the one plugin callback named for that event; an event code outside that set
reaches the fatal assertion branch and invokes no callback. -/
theorem dispatcher_selects_unique_callback (p : Nat) (s : TxnState) :
    callbackForEvent .preRemap = some .handleReadRequestHeadersPreRemap
  ∧ callbackForEvent .postRemap = some .handleReadRequestHeadersPostRemap
  ∧ callbackForEvent .sendRequestHdr = some .handleSendRequestHeaders
  ∧ callbackForEvent .readResponseHdr = some .handleReadResponseHeaders
  ∧ callbackForEvent .sendResponseHdr = some .handleSendResponseHeaders
  ∧ callbackForEvent .osDns = some .handleOsDns
  ∧ callbackForEvent .readRequestHdr = some .handleReadRequestHeaders
  ∧ callbackForEvent .readCacheHdr = some .handleReadCacheHeaders
  ∧ callbackForEvent .cacheLookupComplete = some .handleReadCacheLookupComplete
  ∧ callbackForEvent .selectAlt = some .handleSelectAlt
  ∧ (∀ e : TSEvent, callbackForEvent e = none ↔ (e = .txnClose ∨ ∃ n, e = .other n))
  ∧ (∀ e cb, callbackForEvent e = some cb →
       invokePluginForEvent p s e =
         ((getTransaction s).2, [Action.invoke p cb (getTransaction s).1]))
  ∧ (∀ e, callbackForEvent e = none →
       invokePluginForEvent p s e = ((getTransaction s).2, [Action.assertFail])) := by
  refine ⟨rfl, rfl, rfl, rfl, rfl, rfl, rfl, rfl, rfl, rfl, ?_, ?_, ?_⟩
  · intro e
    cases e <;> simp [callbackForEvent]
  · intro e cb h
    simp [invokePluginForEvent, h]
  · intro e h
    simp [invokePluginForEvent, h]

/-- Witness for C4: dispatching the os-dns event to plugin 5 invokes exactly
handleOsDns on it. -/
theorem dispatcher_selects_unique_callback_witness :
    invokePluginForEvent 5 initialTxnState .osDns =
      ((getTransaction initialTxnState).2,
       [Action.invoke 5 .handleOsDns (getTransaction initialTxnState).1]) :=
  (dispatcher_selects_unique_callback 5 initialTxnState).2.2.2.2.2.2.2.2.2.2.2.1
    .osDns .handleOsDns rfl

/-- getTransaction never touches the plugin list. -/
theorem getTransaction_plugins (s : TxnState) : (getTransaction s).2.plugins = s.plugins := by
  cases h : s.slot <;> simp [getTransaction, h]

/-- The trace of one close-event invocation, in closed form. -/
theorem closeTrace_eq (s : TxnState) :
    (handleTransactionEvents .txnClose s).trace =
      ((s.plugins.flatMap fun q => [Action.lock q, Action.deletePlugin q, Action.unlock q]) ++
        [Action.deleteTxn (getTransaction s).1]) ++ [Action.reenable .cont] := by
  simp [handleTransactionEvents, closeCase, getTransaction_plugins]

/-- Claim C3: for every event code delivered to the event router, the
invocation ends by reenabling the transaction with the CONTINUE signal
exactly once and returning 0; no path skips the continue signal. -/
theorem router_always_reenables (e : TSEvent) (s : TxnState) :
    (handleTransactionEvents e s).ret = 0
  ∧ ((handleTransactionEvents e s).trace.countP fun a => a.isReenable) = 1
  ∧ (handleTransactionEvents e s).trace.getLast? = some (Action.reenable .cont) := by
  refine ⟨rfl, ?_, ?_⟩
  · cases e
    case txnClose =>
      rw [closeTrace_eq, List.countP_append, List.countP_append, countP_isReenable_flatMap]
      rfl
    all_goals simp [handleTransactionEvents, List.countP_cons, Action.isReenable]
  · cases e <;> simp [handleTransactionEvents, List.getLast?_concat]

/-- Each delete block deletes exactly the plugins of the list, with
multiplicity. -/
theorem count_deletePlugin_flatMap (ps : List Nat) (p : Nat) :
    ((ps.flatMap fun q => [Action.lock q, Action.deletePlugin q, Action.unlock q]).count
      (Action.deletePlugin p)) = ps.count p := by
  induction ps with
  | nil => simp
  | cons q ps ih =>
      simp only [List.flatMap_cons, List.count_append, List.count_cons, List.count_nil, ih]
      by_cases h : q = p
      · simp [h]
        omega
      · simp [h]

/-- The delete blocks never mention the transaction delete. -/
theorem count_deleteTxn_flatMap (ps : List Nat) (t : Nat) :
    ((ps.flatMap fun q => [Action.lock q, Action.deletePlugin q, Action.unlock q]).count
      (Action.deleteTxn t)) = 0 := by
  induction ps with
  | nil => simp
  | cons q ps ih => simp [List.flatMap_cons, List.count_append, List.count_cons, ih]

/-- How an action changes the set of mutexes currently held. -/
def heldStep (held : List Nat) : Action → List Nat
  | .lock m => m :: held
  | .unlock m => held.erase m
  | _ => held

/-- Checker for the locking discipline of a trace, given the mutexes already
held: a mutex is only acquired when none is held (so no lock is ever held
across the handling of another plugin), a plugin is only deleted while
exactly its own mutex is held, only the held mutex is released, and the
TransactionObject is only deleted with no mutex held; at the end of the
trace no mutex remains held. -/
def lockDisciplineOk : List Action → List Nat → Bool
  | [], held => held.isEmpty
  | a :: rest, held =>
      (match a with
       | .lock _ => held.isEmpty
       | .deletePlugin q => held == [q]
       | .unlock m => held == [m]
       | .deleteTxn _ => held.isEmpty
       | _ => true) && lockDisciplineOk rest (heldStep held a)

/-- The delete blocks obey the locking discipline and leave no mutex held for
the remainder of the trace. -/
theorem lockDisciplineOk_flatMap (ps : List Nat) (tail : List Action) :
    lockDisciplineOk
      ((ps.flatMap fun q => [Action.lock q, Action.deletePlugin q, Action.unlock q]) ++ tail)
      [] = lockDisciplineOk tail [] := by
  induction ps with
  | nil => simp
  | cons q ps ih =>
      simp only [List.flatMap_cons, List.cons_append, List.nil_append, List.append_assoc]
      simp only [lockDisciplineOk, heldStep, List.isEmpty_nil, beq_self_eq_true,
        List.erase_cons_head, Bool.true_and, Bool.and_true]
      exact ih

/-- Claim C2: on the transaction-close event the router deletes every
registered per-transaction plugin exactly once, each under its own mutex
with the lock scoped to that single delete and never held across another
plugin; the TransactionObject is deleted exactly once, only after all
plugins are destroyed and with no lock held. -/
theorem close_event_destroys_all_under_scoped_locks (s : TxnState) (hnd : s.plugins.Nodup) :
    ((handleTransactionEvents .txnClose s).trace.count
        (Action.deleteTxn (getTransaction s).1)) = 1
  ∧ (∀ p, p ∈ s.plugins →
        (handleTransactionEvents .txnClose s).trace.count (Action.deletePlugin p) = 1)
  ∧ (∀ p, p ∉ s.plugins →
        (handleTransactionEvents .txnClose s).trace.count (Action.deletePlugin p) = 0)
  ∧ (∃ pre, (handleTransactionEvents .txnClose s).trace =
        pre ++ [Action.deleteTxn (getTransaction s).1, Action.reenable .cont]
      ∧ ∀ p, Action.deletePlugin p ∈ pre → p ∈ s.plugins)
  ∧ lockDisciplineOk (handleTransactionEvents .txnClose s).trace [] = true := by
  have hpl := getTransaction_plugins s
  have htr : (handleTransactionEvents .txnClose s).trace =
      ((s.plugins.flatMap fun q => [Action.lock q, Action.deletePlugin q, Action.unlock q]) ++
        [Action.deleteTxn (getTransaction s).1]) ++ [Action.reenable .cont] := by
    simp [handleTransactionEvents, closeCase, hpl]
  refine ⟨?_, ?_, ?_, ?_, ?_⟩
  · rw [htr]
    simp [List.count_append, count_deleteTxn_flatMap]
  · intro p hp
    rw [htr]
    simp [List.count_append, count_deletePlugin_flatMap]
    exact List.count_eq_one_of_mem hnd hp
  · intro p hp
    rw [htr]
    simp [List.count_append, count_deletePlugin_flatMap]
    exact List.count_eq_zero_of_not_mem hp
  · refine ⟨s.plugins.flatMap fun q => [Action.lock q, Action.deletePlugin q, Action.unlock q],
      ?_, ?_⟩
    · rw [htr, List.append_assoc]
      rfl
    · intro p hp
      rcases List.mem_flatMap.mp hp with ⟨q, hq, hmem⟩
      simp only [List.mem_cons, List.not_mem_nil, or_false] at hmem
      rcases hmem with h | h | h
      · simp at h
      · cases h
        exact hq
      · simp at h
  · rw [htr, List.append_assoc, lockDisciplineOk_flatMap]
    simp [lockDisciplineOk, heldStep]

/-- Witness for C2: closing a transaction with plugins 3 and 4 registered
deletes plugin 3 exactly once. -/
theorem close_event_destroys_witness :
    (handleTransactionEvents .txnClose
        ⟨some 7, 8, [7], [], [3, 4], []⟩).trace.count (Action.deletePlugin 3) = 1 := by
  have h := close_event_destroys_all_under_scoped_locks ⟨some 7, 8, [7], [], [3, 4], []⟩
    (by decide)
  exact h.2.1 3 (by decide)

/-- getTransaction always leaves the slot holding the returned pointer. -/
theorem getTransaction_slot (s : TxnState) :
    (getTransaction s).2.slot = some (getTransaction s).1 := by
  cases h : s.slot <;> simp [getTransaction, h]

/-- getTransaction on a non-empty slot is a pure read. -/
theorem getTransaction_of_slot_some (s : TxnState) (t : Nat) (h : s.slot = some t) :
    getTransaction s = (t, s) := by
  simp [getTransaction, h]

/-- The router's state effect in closed form: the close event clears the
plugin list and appends to the freed lists; every other event leaves the
state as getTransaction left it. -/
theorem handler_state_eq (e : TSEvent) (s : TxnState) :
    (handleTransactionEvents e s).state =
      if e = .txnClose then
        { (getTransaction s).2 with
            plugins := [],
            freedPlugins := (getTransaction s).2.freedPlugins ++ (getTransaction s).2.plugins,
            freed := (getTransaction s).2.freed ++ [(getTransaction s).1] }
      else (getTransaction s).2 := by
  cases e <;> simp [handleTransactionEvents, closeCase]

/-- The slot invariant tying the reserved slot to the allocation history: an
empty slot means nothing was ever allocated or freed for this handle, and a
full slot holds the address of the unique object ever allocated. -/
def slotInv (s : TxnState) : Prop :=
  match s.slot with
  | none => s.allocated = [] ∧ s.freed = []
  | some t => s.allocated = [t]

/-- getTransaction preserves the slot invariant. -/
theorem slotInv_getTransaction (s : TxnState) (h : slotInv s) :
    slotInv (getTransaction s).2 := by
  cases hs : s.slot with
  | none =>
      simp only [slotInv, hs] at h
      simp [getTransaction, hs, slotInv, h.1]
  | some t =>
      simpa [getTransaction, hs] using h

/-- Every operation preserves the slot invariant. -/
theorem slotInv_applyOp (s : TxnState) (op : Op) (h : slotInv s) : slotInv (applyOp s op) := by
  cases op with
  | getTxn => exact slotInv_getTransaction s h
  | registerPlugin p =>
      cases hs : s.slot <;> simp only [applyOp, slotInv, hs] at h ⊢ <;> exact h
  | ev e =>
      have h1 : slotInv (getTransaction s).2 := slotInv_getTransaction s h
      have hslot := getTransaction_slot s
      simp only [applyOp, handler_state_eq]
      by_cases he : e = .txnClose
      · simp only [he, if_pos]
        simp only [slotInv, hslot] at h1 ⊢
        exact h1
      · simp only [if_neg he]
        exact h1

/-- The slot invariant holds along every run from the given state. -/
theorem slotInv_runOps (ops : List Op) (s : TxnState) (h : slotInv s) :
    slotInv (runOps s ops) := by
  induction ops generalizing s with
  | nil => exact h
  | cons op ops ih => exact ih _ (slotInv_applyOp s op h)

/-- Once the slot is written, no operation changes it or allocates again. -/
theorem applyOp_preserves (s : TxnState) (op : Op) (t : Nat) (h : s.slot = some t) :
    (applyOp s op).slot = some t ∧ (applyOp s op).allocated = s.allocated := by
  cases op with
  | getTxn => simp [applyOp, getTransaction_of_slot_some s t h, h]
  | registerPlugin p => simp [applyOp, h]
  | ev e =>
      simp only [applyOp, handler_state_eq, getTransaction_of_slot_some s t h]
      by_cases he : e = .txnClose
      · simp [he, h]
      · simp [he, h]

/-- Once the slot is written, no run changes it or allocates again. -/
theorem runOps_preserves (ops : List Op) (s : TxnState) (t : Nat) (h : s.slot = some t) :
    (runOps s ops).slot = some t ∧ (runOps s ops).allocated = s.allocated := by
  induction ops generalizing s with
  | nil => exact ⟨h, rfl⟩
  | cons op ops ih =>
      have hp := applyOp_preserves s op t h
      have hr := ih (applyOp s op) hp.1
      exact ⟨hr.1, hr.2.trans hp.2⟩

/-- Running a concatenation of operation lists runs them in sequence. -/
theorem runOps_append (s : TxnState) (l1 l2 : List Op) :
    runOps s (l1 ++ l2) = runOps (runOps s l1) l2 := by
  simp [runOps, List.foldl_append]

/-- Claim C1: getTransaction returns the same TransactionObject instance on
every call: the first call with an empty reserved slot allocates a new
object and writes its address into the slot, every later call returns that
identical object with no state change, over any operation sequence at most
one TransactionObject is ever allocated for a handle, and after one is
freed no further run ever allocates another. -/
theorem getTransaction_idempotent_unique (s : TxnState) (ops ops' : List Op) (u : Nat) :
    (s.slot = none →
        getTransaction s =
          (s.nextId,
           { s with
               slot := some s.nextId,
               nextId := s.nextId + 1,
               allocated := s.allocated ++ [s.nextId] }))
  ∧ getTransaction (getTransaction s).2 = ((getTransaction s).1, (getTransaction s).2)
  ∧ (runOps initialTxnState ops).allocated.length ≤ 1
  ∧ (u ∈ (runOps initialTxnState ops).freed →
        (runOps initialTxnState (ops ++ ops')).allocated =
          (runOps initialTxnState ops).allocated) := by
  have hinv : slotInv (runOps initialTxnState ops) :=
    slotInv_runOps ops initialTxnState (by simp [slotInv, initialTxnState])
  refine ⟨?_, ?_, ?_, ?_⟩
  · intro h
    simp [getTransaction, h]
  · exact getTransaction_of_slot_some _ _ (getTransaction_slot s)
  · cases hs : (runOps initialTxnState ops).slot with
    | none =>
        simp only [slotInv, hs] at hinv
        simp [hinv.1]
    | some t =>
        simp only [slotInv, hs] at hinv
        simp [hinv]
  · intro hu
    cases hs : (runOps initialTxnState ops).slot with
    | none =>
        simp only [slotInv, hs] at hinv
        rw [hinv.2] at hu
        cases hu
    | some t =>
        rw [runOps_append]
        exact (runOps_preserves ops' _ t hs).2

/-- Witness for C1: on a fresh handle the first call allocates object 0 and
writes the slot; after a close event on that handle, a further getTransaction
call allocates nothing. -/
theorem getTransaction_idempotent_unique_witness :
    getTransaction initialTxnState =
      (0, { initialTxnState with slot := some 0, nextId := 1, allocated := [0] })
  ∧ (runOps initialTxnState ([Op.ev .txnClose] ++ [Op.getTxn])).allocated =
      (runOps initialTxnState [Op.ev .txnClose]).allocated := by
  have h := getTransaction_idempotent_unique initialTxnState [Op.ev .txnClose] [Op.getTxn] 0
  exact ⟨h.1 rfl, h.2.2.2 (by decide)⟩

/-- Claim C10: the transaction-close case block never writes the reserved
storage slot; after a close event the slot still holds the address of the
freed TransactionObject, and a subsequent getTransaction on the same handle
returns that stale pointer without constructing a fresh object. -/
theorem close_leaves_stale_slot (s : TxnState) :
    (∀ u, ((closeCase u s).1).slot = s.slot)
  ∧ (handleTransactionEvents .txnClose s).state.slot = some (getTransaction s).1
  ∧ (getTransaction s).1 ∈ (handleTransactionEvents .txnClose s).state.freed
  ∧ getTransaction (handleTransactionEvents .txnClose s).state =
      ((getTransaction s).1, (handleTransactionEvents .txnClose s).state) := by
  have hslot := getTransaction_slot s
  have h2 : (handleTransactionEvents .txnClose s).state.slot = some (getTransaction s).1 := by
    rw [handler_state_eq]
    simp [hslot]
  refine ⟨?_, h2, ?_, ?_⟩
  · intro u
    simp [closeCase]
  · rw [handler_state_eq]
    simp
  · exact getTransaction_of_slot_some _ _ h2

/-- The effect of an action on mutexes: some (true, m) acquires m,
some (false, m) releases m, none touches no mutex. -/
def Action.mutexEffect : Action → Option (Bool × Nat)
  | .lock m => some (true, m)
  | .unlock m => some (false, m)
  | _ => none

/-- Tag for the origin of an action in an interleaving of two threads. -/
inductive Side where
  | a
  | b
deriving DecidableEq, Repr

/-- All interleavings of two action sequences, each action tagged with the
thread it came from. -/
def interleavings : List Action → List Action → List (List (Side × Action))
  | [], ys => [ys.map fun y => (Side.b, y)]
  | x :: xs, [] => [(x :: xs).map fun z => (Side.a, z)]
  | x :: xs, y :: ys =>
      ((interleavings xs (y :: ys)).map fun l => (Side.a, x) :: l) ++
        ((interleavings (x :: xs) ys).map fun l => (Side.b, y) :: l)
termination_by xs ys => xs.length + ys.length

/-- Whether a tagged action sequence respects mutex semantics, given which
thread currently holds each mutex: a mutex can only be acquired while not
held, and only released by its holder. -/
def mutexOk : List (Side × Action) → List (Nat × Side) → Bool
  | [], _ => true
  | (sd, act) :: rest, held =>
      match act.mutexEffect with
      | none => mutexOk rest held
      | some (true, m) =>
          match held.lookup m with
          | none => mutexOk rest ((m, sd) :: held)
          | some _ => false
      | some (false, m) =>
          match held.lookup m with
          | some sd' => sd' == sd && mutexOk rest (held.eraseP fun q => q.1 == m)
          | none => false

/-- The delete block of a registered plugin is a contiguous segment of the
close case's delete loop. -/
theorem infix_delete_block (ps : List Nat) (p : Nat) (hp : p ∈ ps) :
    List.IsInfix [Action.lock p, Action.deletePlugin p, Action.unlock p]
      (ps.flatMap fun q => [Action.lock q, Action.deletePlugin q, Action.unlock q]) := by
  induction ps with
  | nil => cases hp
  | cons q ps ih =>
      rcases List.mem_cons.mp hp with rfl | hmem
      · exact ⟨[], ps.flatMap fun r => [Action.lock r, Action.deletePlugin r, Action.unlock r],
          by simp [List.flatMap_cons]⟩
      · rcases ih hmem with ⟨pre, post, hpre⟩
        exact ⟨[Action.lock q, Action.deletePlugin q, Action.unlock q] ++ pre, post,
          by rw [List.flatMap_cons, ← hpre]; simp [List.append_assoc]⟩

set_option maxHeartbeats 1000000 in
/-- Claim C5: dispatching to a per-transaction plugin takes that plugin's
own mutex around the single callback (released unconditionally, also on the
assert path), dispatching to a global plugin takes no lock, destruction of a
registered per-transaction plugin at close runs under the same mutex, and
consequently no mutex-respecting interleaving of the dispatch critical
section with the destruction critical section ever interleaves them: one
completes entirely before the other begins. -/
theorem per_plugin_mutex_excludes_interleaving (p u : Nat) (e : TSEvent)
    (cb : PluginCallback) (s : TxnState) (hcb : callbackForEvent e = some cb) :
    (invokeTransactionPluginForEvent p s e).2 =
      [Action.lock p, Action.invoke p cb (getTransaction s).1, Action.unlock p]
  ∧ (∀ e', callbackForEvent e' = none →
        (invokeTransactionPluginForEvent p s e').2 =
          [Action.lock p, Action.assertFail, Action.unlock p])
  ∧ (∀ a, a ∈ (invokeGlobalPluginForEvent p s e).2 → a.mutexEffect = none)
  ∧ (p ∈ s.plugins →
        List.IsInfix [Action.lock p, Action.deletePlugin p, Action.unlock p] (closeCase u s).2)
  ∧ (∀ l, l ∈ interleavings (invokeTransactionPluginForEvent p s e).2
        [Action.lock p, Action.deletePlugin p, Action.unlock p] →
      mutexOk l [] = true →
        l = ((invokeTransactionPluginForEvent p s e).2.map fun z => (Side.a, z)) ++
              ([Action.lock p, Action.deletePlugin p, Action.unlock p].map fun z => (Side.b, z))
      ∨ l = ([Action.lock p, Action.deletePlugin p, Action.unlock p].map fun z => (Side.b, z)) ++
              ((invokeTransactionPluginForEvent p s e).2.map fun z => (Side.a, z))) := by
  have h1 : (invokeTransactionPluginForEvent p s e).2 =
      [Action.lock p, Action.invoke p cb (getTransaction s).1, Action.unlock p] := by
    simp [invokeTransactionPluginForEvent, invokePluginForEvent, hcb]
  refine ⟨h1, ?_, ?_, ?_, ?_⟩
  · intro e' h
    simp [invokeTransactionPluginForEvent, invokePluginForEvent, h]
  · intro a ha
    simp only [invokeGlobalPluginForEvent, invokePluginForEvent, hcb] at ha
    simp only [List.mem_singleton] at ha
    subst ha
    rfl
  · intro hp
    rcases infix_delete_block s.plugins p hp with ⟨pre, post, hpre⟩
    refine ⟨pre, post ++ [Action.deleteTxn u], ?_⟩
    simp only [closeCase]
    rw [← hpre]
    simp [List.append_assoc]
  · rw [h1]
    intro l hl hok
    simp only [interleavings, List.map_cons, List.map_nil, List.cons_append, List.nil_append,
      List.mem_append, List.mem_map, List.mem_singleton] at hl
    simp only [List.mem_cons, List.not_mem_nil, or_false] at hl
    rcases hl with
      rfl|rfl|rfl|rfl|rfl|rfl|rfl|rfl|rfl|rfl|rfl|rfl|rfl|rfl|rfl|rfl|rfl|rfl|rfl|rfl <;>
      simp_all [mutexOk, Action.mutexEffect, List.lookup, List.eraseP]

/-- Witness for C5: dispatching the pre-remap event to per-transaction
plugin 2 on a fresh handle wraps exactly the one callback invocation in that
plugin's lock and unlock. -/
theorem per_plugin_mutex_excludes_interleaving_witness :
    (invokeTransactionPluginForEvent 2 initialTxnState .preRemap).2 =
      [Action.lock 2, Action.invoke 2 .handleReadRequestHeadersPreRemap 0, Action.unlock 2] :=
  (per_plugin_mutex_excludes_interleaving 2 9 .preRemap .handleReadRequestHeadersPreRemap
    initialTxnState rfl).1

end AtsCppApi
